import Mathlib

/-!
# Verification of the service error-normalization layer

Shallow embedding of the decorator-based error handler
(`HandleError` / `ServiceErrorHandler` / `handleServiceError` / `sanitizeArgs`)
and of the plain higher-order wrapper (`withErrorHandling` / `handleServiceError`
in `services/utils/serviceErrorHandler.ts`), together with proofs of the
specified properties of error normalization, context enrichment and
argument sanitization.

JavaScript runtime values are modelled by `JSVal`; JS objects are association
lists whose lookup takes the *last* binding for a key, so object spread
`{...a, ...b}` is list append (keys of `b` override keys of `a`).
-/

/-- Model of a JavaScript runtime value. Objects and arrays are both
`typeof === 'object'` values; `null` is kept separate because the source
guards with `arg !== null`. -/
inductive JSVal where
  | vNull
  | vUndefined
  | vBool (b : Bool)
  | vNum (n : Int)
  | vStr (s : String)
  | vArr (elems : List JSVal)
  | vObj (fields : List (String × JSVal))

/-- A JS object: an association list of string keys to values. Later
bindings shadow earlier ones, matching JS assignment/spread order. -/
abbrev Obj := List (String × JSVal)

/-- JS property lookup: the last binding for the key wins (later spreads and
assignments override earlier ones). -/
def Obj.get : Obj → String → Option JSVal
  | [], _ => none
  | p :: rest, k =>
    match Obj.get rest k with
    | some v => some v
    | none => if p.1 = k then some p.2 else none

/-- JS `key in obj`: is the key present at all. -/
def Obj.hasKey (o : Obj) (k : String) : Bool :=
  o.any (fun p => p.1 == k)

@[simp] theorem Obj.get_nil (k : String) : Obj.get [] k = none := rfl

@[simp] theorem Obj.get_cons (p : String × JSVal) (o : Obj) (k : String) :
    Obj.get (p :: o) k =
      match Obj.get o k with
      | some v => some v
      | none => if p.1 = k then some p.2 else none := rfl

theorem Obj.get_append_some {b : Obj} {k : String} {v : JSVal} (a : Obj)
    (h : Obj.get b k = some v) : Obj.get (a ++ b) k = some v := by
  induction a with
  | nil => simpa using h
  | cons p a ih =>
    simp only [List.cons_append, Obj.get_cons, ih]

theorem Obj.get_append_none {b : Obj} {k : String} (a : Obj)
    (h : Obj.get b k = none) : Obj.get (a ++ b) k = Obj.get a k := by
  induction a with
  | nil => simpa using h
  | cons p a ih =>
    simp only [List.cons_append, Obj.get_cons, ih]

theorem Obj.hasKey_iff_get_isSome (o : Obj) (k : String) :
    o.hasKey k = true ↔ (o.get k).isSome = true := by
  induction o with
  | nil => simp [Obj.hasKey, Obj.get]
  | cons p o ih =>
    simp only [Obj.hasKey, List.any_cons, Bool.or_eq_true, beq_iff_eq] at *
    constructor
    · rintro (hk | hrest)
      · simp only [Obj.get]
        cases hr : Obj.get o k with
        | some v => simp
        | none => simp [hk]
      · simp only [Obj.get]
        rcases Option.isSome_iff_exists.mp (ih.mp hrest) with ⟨v, hv⟩
        simp [hv]
    · intro hs
      simp only [Obj.get] at hs
      cases hr : Obj.get o k with
      | some v => exact Or.inr (ih.mpr (by simp [hr]))
      | none =>
        rw [hr] at hs
        by_cases hk : p.1 = k
        · exact Or.inl hk
        · simp [hk] at hs

/-- The fixed sensitive-field set from `sanitizeArgs`. -/
def sensitiveFields : List String :=
  ["password", "token", "secret", "apiKey", "authorization"]

/-- The assignment `sanitized[field] = '[REDACTED]'` applied to one binding:
a binding of `field` gets the redaction marker, others are untouched. -/
def redactAssign (field : String) (p : String × JSVal) : String × JSVal :=
  if p.1 == field then (p.1, JSVal.vStr "[REDACTED]") else p

/-- One iteration of the `sensitiveFields.forEach` body in `sanitizeArgs`:
`if (field in sanitized) sanitized[field] = '[REDACTED]'`. Assignment to an
existing key overwrites every binding of that key in place. -/
def redactField (o : Obj) (field : String) : Obj :=
  if o.hasKey field then o.map (redactAssign field) else o

/-- The whole `forEach` loop over the sensitive fields. -/
def redactSensitive (o : Obj) : Obj :=
  sensitiveFields.foldl redactField o

/-- Object spread of a JS array (`{...arr}`): index keys `"0"`, `"1"`, …
mapped to the elements. -/
def arrToObj (xs : List JSVal) : Obj :=
  xs.enum.map (fun p => (toString p.1, p.2))

/-- The body of the `args.map` in `sanitizeArgs`: values with
`typeof arg === 'object' && arg !== null` (plain objects *and* arrays) are
shallow-copied with `{...arg}` and sensitive fields overwritten; everything
else passes through. -/
def sanitizeArg (arg : JSVal) : JSVal :=
  match arg with
  | .vObj fs => .vObj (redactSensitive fs)
  | .vArr xs => .vObj (redactSensitive (arrToObj xs))
  | v => v

/-- `sanitizeArgs` from the decorator module. -/
def sanitizeArgs (args : List JSVal) : List JSVal :=
  args.map sanitizeArg

theorem Obj.get_map_redactAssign_ne {k field : String} (o : Obj) (h : k ≠ field) :
    Obj.get (o.map (redactAssign field)) k = Obj.get o k := by
  induction o with
  | nil => rfl
  | cons p o ih =>
    simp only [List.map_cons, Obj.get, ih]
    cases hr : Obj.get o k with
    | some v => rfl
    | none =>
      by_cases hp : p.1 = field
      · have hfk : ¬ field = k := fun hh => h hh.symm
        simp [redactAssign, hp, hfk]
      · simp [redactAssign, hp]

theorem Obj.get_map_redactAssign_self (field : String) (o : Obj) :
    Obj.get (o.map (redactAssign field)) field
      = (Obj.get o field).map (fun _ => JSVal.vStr "[REDACTED]") := by
  induction o with
  | nil => rfl
  | cons p o ih =>
    simp only [List.map_cons, Obj.get, ih]
    cases hr : Obj.get o field with
    | some v => rfl
    | none =>
      by_cases hp : p.1 = field
      · simp [redactAssign, hp]
      · simp [redactAssign, hp]

theorem Obj.get_redactField_ne {k field : String} (o : Obj) (h : k ≠ field) :
    Obj.get (redactField o field) k = Obj.get o k := by
  unfold redactField
  split
  · exact Obj.get_map_redactAssign_ne o h
  · rfl

theorem Obj.get_redactField_self {field : String} (o : Obj)
    (h : (Obj.get o field).isSome = true) :
    Obj.get (redactField o field) field = some (JSVal.vStr "[REDACTED]") := by
  unfold redactField
  rw [if_pos ((Obj.hasKey_iff_get_isSome o field).mpr h)]
  rw [Obj.get_map_redactAssign_self]
  rcases Option.isSome_iff_exists.mp h with ⟨v, hv⟩
  simp [hv]

theorem Obj.get_redactField_redacted {k : String} (o : Obj) (f : String)
    (h : Obj.get o k = some (JSVal.vStr "[REDACTED]")) :
    Obj.get (redactField o f) k = some (JSVal.vStr "[REDACTED]") := by
  by_cases hk : k = f
  · subst hk
    exact Obj.get_redactField_self o (by simp [h])
  · rw [Obj.get_redactField_ne o hk]
    exact h

theorem Obj.get_foldl_redactField_redacted {k : String} (l : List String) (o : Obj)
    (h : Obj.get o k = some (JSVal.vStr "[REDACTED]")) :
    Obj.get (l.foldl redactField o) k = some (JSVal.vStr "[REDACTED]") := by
  induction l generalizing o with
  | nil => exact h
  | cons f l ih => exact ih _ (Obj.get_redactField_redacted o f h)

theorem Obj.get_foldl_redactField_mem {k : String} (l : List String) (o : Obj)
    (hmem : k ∈ l) (h : (Obj.get o k).isSome = true) :
    Obj.get (l.foldl redactField o) k = some (JSVal.vStr "[REDACTED]") := by
  induction l generalizing o with
  | nil => cases hmem
  | cons f l ih =>
    by_cases hk : k = f
    · subst hk
      exact Obj.get_foldl_redactField_redacted l _ (Obj.get_redactField_self o h)
    · rcases List.mem_cons.mp hmem with h2 | h2
      · exact absurd h2 hk
      · exact ih _ h2 (by rw [Obj.get_redactField_ne o hk]; exact h)

theorem Obj.get_foldl_redactField_not_mem {k : String} (l : List String) (o : Obj)
    (hmem : k ∉ l) :
    Obj.get (l.foldl redactField o) k = Obj.get o k := by
  induction l generalizing o with
  | nil => rfl
  | cons f l ih =>
    have h1 : k ≠ f := fun h => hmem (by simp [h])
    have h2 : k ∉ l := fun h => hmem (List.mem_cons_of_mem _ h)
    simp only [List.foldl_cons]
    rw [ih _ h2, Obj.get_redactField_ne o h1]

/-- Redaction of a sensitive key present at the top level of an object. -/
theorem Obj.get_redactSensitive_mem {k : String} (o : Obj)
    (hmem : k ∈ sensitiveFields) (h : (Obj.get o k).isSome = true) :
    Obj.get (redactSensitive o) k = some (JSVal.vStr "[REDACTED]") :=
  Obj.get_foldl_redactField_mem sensitiveFields o hmem h

/-- Non-sensitive keys keep their values. -/
theorem Obj.get_redactSensitive_not_mem {k : String} (o : Obj)
    (hmem : k ∉ sensitiveFields) :
    Obj.get (redactSensitive o) k = Obj.get o k :=
  Obj.get_foldl_redactField_not_mem sensitiveFields o hmem

/-!
## The error model

`ApiError` is the uniform error class (`services/api/errorHandler.ts`):
`message`, `statusCode`, `code`, and an optional `details` object (absent
details behave as `{}` under spread, so it is modelled as an `Obj`).

`Thrown` models what a wrapped operation can throw. The `instanceof`
chain in `handleServiceError` checks `ApiError`, then `z.ZodError`, then
`Error`; any other thrown value falls into the final branch. The Zod issue
list is never inspected by the handler, so it is carried as raw `JSVal`s.
-/

/-- The `ApiError` class from `services/api/errorHandler.ts`. -/
structure ApiError where
  message : String
  statusCode : Int
  code : String
  details : Obj

/-- A value thrown by an underlying operation, as discriminated by the
`instanceof` chain of `handleServiceError`. -/
inductive Thrown where
  | apiError (e : ApiError)
  | zodError (errors : List JSVal)
  | genericError (message : String)
  | value (v : JSVal)

/-- The `ErrorContext` interface of `serviceErrorHandler.ts`:
`{ operation: string; [key: string]: any }`. The decorator module builds
its context object the same way, with `operation` always a string. -/
structure ErrorContext where
  operation : String
  extra : Obj

/-- The context as the JS object it is spread from: the `operation` entry
followed by the remaining entries. -/
def ErrorContext.toObj (c : ErrorContext) : Obj :=
  ("operation", JSVal.vStr c.operation) :: c.extra

namespace Decorators

/-- `handleServiceError` from the decorator module (the file also holding
`HandleError` / `ServiceErrorHandler`). Branches in source order:
`ApiError`, `z.ZodError`, `Error`, fallback. Object spread `{...a, ...b}`
is append with last-binding-wins lookup. -/
def handleServiceError (error : Thrown) (context : ErrorContext) : ApiError :=
  match error with
  | .apiError e =>
      { message := "Failed in " ++ context.operation ++ ": " ++ e.message
        statusCode := e.statusCode
        code := e.code
        details := e.details ++ context.toObj }
  | .zodError errors =>
      { message := "Validation error in " ++ context.operation
        statusCode := 0
        code := "VALIDATION_ERROR"
        details := [("zodError", JSVal.vArr errors)] ++ context.toObj }
  | .genericError msg =>
      { message := "Error in " ++ context.operation ++ ": " ++ msg
        statusCode := 0
        code := "UNKNOWN_ERROR"
        details := context.toObj }
  | .value v =>
      { message := "Unknown error in " ++ context.operation
        statusCode := 0
        code := "UNKNOWN_ERROR"
        details := [("error", v)] ++ context.toObj }

end Decorators

namespace SEH

/-- `handleServiceError` from `services/utils/serviceErrorHandler.ts`.
Identical to the decorator module's version except that the re-wrap
message reads `"Failed to <operation>: ..."` instead of
`"Failed in <operation>: ..."`. -/
def handleServiceError (error : Thrown) (context : ErrorContext) : ApiError :=
  match error with
  | .apiError e =>
      { message := "Failed to " ++ context.operation ++ ": " ++ e.message
        statusCode := e.statusCode
        code := e.code
        details := e.details ++ context.toObj }
  | .zodError errors =>
      { message := "Validation error in " ++ context.operation
        statusCode := 0
        code := "VALIDATION_ERROR"
        details := [("zodError", JSVal.vArr errors)] ++ context.toObj }
  | .genericError msg =>
      { message := "Error in " ++ context.operation ++ ": " ++ msg
        statusCode := 0
        code := "UNKNOWN_ERROR"
        details := context.toObj }
  | .value v =>
      { message := "Unknown error in " ++ context.operation
        statusCode := 0
        code := "UNKNOWN_ERROR"
        details := [("error", v)] ++ context.toObj }

/-- `withErrorHandling` from `serviceErrorHandler.ts`: resolve with the
original value, or throw `handleServiceError(error, { operation, args })`.
The raw argument array is stored (this wrapper does not sanitize). -/
def withErrorHandling (fn : List JSVal → Except Thrown JSVal) (operation : String) :
    List JSVal → Except Thrown JSVal :=
  fun args =>
    match fn args with
    | .ok v => .ok v
    | .error e =>
        .error (.apiError (handleServiceError e
          { operation := operation, extra := [("args", JSVal.vArr args)] }))

end SEH

/-!
## The decorator wrappers

An asynchronous operation is modelled as `List JSVal → Except Thrown JSVal`:
the settled outcome of the promise (resolution value or thrown/rejected
value). `HandleError`'s replacement method awaits the original and, on
failure, throws the enriched `ApiError`.
-/

/-- The method produced by the `HandleError` decorator. `operation` is the
optional name override; the JS default `operation || `${ctor}.${key}`` also
falls back when the override is the empty string (falsy). `propertyKey` is
the method name and `ctorName` is `target.constructor.name`. -/
def HandleError (operation : Option String) (propertyKey ctorName : String)
    (fn : List JSVal → Except Thrown JSVal) :
    List JSVal → Except Thrown JSVal :=
  let operationName :=
    match operation with
    | some s => if s.isEmpty then ctorName ++ "." ++ propertyKey else s
    | none => ctorName ++ "." ++ propertyKey
  fun args =>
    match fn args with
    | .ok v => .ok v
    | .error e =>
        .error (.apiError (Decorators.handleServiceError e
          { operation := operationName
            extra := [("method", JSVal.vStr propertyKey),
                      ("service", JSVal.vStr ctorName),
                      ("args", JSVal.vArr (sanitizeArgs args))] }))

/-- One named method of a service class prototype. `isAsync` models the
source's asynchrony test (`method.constructor.name === 'AsyncFunction'`, or
the promise-returning source-text heuristic) as an explicit flag, since
function source text has no counterpart in a value embedding; the spec's
design notes prescribe exactly this manifest. -/
structure MethodDef where
  name : String
  isAsync : Bool
  fn : List JSVal → Except Thrown JSVal

instance : Inhabited MethodDef :=
  ⟨{ name := "", isAsync := false, fn := fun _ => .ok .vUndefined }⟩

/-- The `ServiceErrorHandler` class decorator: every method detected as
asynchronous is replaced by its `HandleError`-wrapped version with
operation name `"<serviceName>.<methodName>"`; other methods are left
untouched. `ctorName` is the decorated class's `constructor.name`. -/
def ServiceErrorHandler (serviceName ctorName : String)
    (methods : List MethodDef) : List MethodDef :=
  methods.map fun m =>
    if m.isAsync then
      { m with fn := HandleError (some (serviceName ++ "." ++ m.name)) m.name ctorName m.fn }
    else m

/-!
## Claim theorems
-/

/-- C1: for every wrapped operation and every argument list, if the
underlying operation fails with any thrown value whatsoever — an existing
`ApiError`, a Zod validation error, an ordinary `Error`, or a non-error
value — the wrapper (both the `HandleError` decorator and
`withErrorHandling`) throws a `NormalizedError` (`ApiError`); no raw
thrown value ever propagates to the caller. -/
theorem wrapper_failure_always_normalized
    (fn fn2 : List JSVal → Except Thrown JSVal) (operation : Option String)
    (propertyKey ctorName opName2 : String) (args args2 : List JSVal)
    (t t2 : Thrown)
    (h1 : HandleError operation propertyKey ctorName fn args = .error t)
    (h2 : SEH.withErrorHandling fn2 opName2 args2 = .error t2) :
    (∃ a, t = Thrown.apiError a) ∧ (∃ a, t2 = Thrown.apiError a) := by
  constructor
  · cases hfn : fn args with
    | ok v =>
      simp only [HandleError, hfn] at h1
      exact absurd h1 (by simp)
    | error e =>
      simp only [HandleError, hfn] at h1
      exact ⟨_, (Except.error.inj h1).symm⟩
  · cases hfn : fn2 args2 with
    | ok v =>
      simp only [SEH.withErrorHandling, hfn] at h2
      exact absurd h2 (by simp)
    | error e =>
      simp only [SEH.withErrorHandling, hfn] at h2
      exact ⟨_, (Except.error.inj h2).symm⟩

/-- Witness for C1: a concrete operation throwing the non-error value
`null` leads both wrappers to throw an `ApiError`. -/
theorem wrapper_failure_always_normalized_witness :
    (∃ a, Thrown.apiError (Decorators.handleServiceError (.value .vNull)
        { operation := "Svc.m", extra := [("method", JSVal.vStr "m"),
          ("service", JSVal.vStr "Svc"), ("args", JSVal.vArr (sanitizeArgs []))] })
      = Thrown.apiError a)
    ∧ (∃ a, Thrown.apiError (SEH.handleServiceError (.value .vNull)
        { operation := "Svc.m", extra := [("args", JSVal.vArr [])] })
      = Thrown.apiError a) :=
  wrapper_failure_always_normalized
    (fun _ => .error (.value .vNull)) (fun _ => .error (.value .vNull))
    (some "Svc.m") "m" "Svc" "Svc.m" [] [] _ _ rfl rfl

/-- C3: for every wrapped operation and every argument list for which the
underlying operation resolves with value `v`, both wrappers resolve with
exactly `v`, unmodified. -/
theorem wrapper_success_passthrough
    (fn fn2 : List JSVal → Except Thrown JSVal) (operation : Option String)
    (propertyKey ctorName opName2 : String) (args args2 : List JSVal)
    (v v2 : JSVal)
    (h1 : fn args = .ok v) (h2 : fn2 args2 = .ok v2) :
    HandleError operation propertyKey ctorName fn args = .ok v
      ∧ SEH.withErrorHandling fn2 opName2 args2 = .ok v2 := by
  constructor
  · simp only [HandleError, h1]
  · simp only [SEH.withErrorHandling, h2]

/-- Witness for C3: a concrete operation resolving with `42` is returned
unchanged by both wrappers. -/
theorem wrapper_success_passthrough_witness :
    HandleError (some "Svc.m") "m" "Svc" (fun _ => .ok (.vNum 42)) [] = .ok (.vNum 42)
      ∧ SEH.withErrorHandling (fun _ => .ok (.vNum 42)) "Svc.m" [] = .ok (.vNum 42) :=
  wrapper_success_passthrough
    (fun _ => .ok (.vNum 42)) (fun _ => .ok (.vNum 42))
    (some "Svc.m") "m" "Svc" "Svc.m" [] [] (.vNum 42) (.vNum 42) rfl rfl

/-- C10: re-wrapping an error that is already an `ApiError` preserves its
`statusCode` and its `code` (kind) exactly, in both `handleServiceError`
implementations. -/
theorem rewrap_preserves_statusCode_and_code (e : ApiError) (ctx : ErrorContext) :
    ((Decorators.handleServiceError (.apiError e) ctx).statusCode = e.statusCode
      ∧ (Decorators.handleServiceError (.apiError e) ctx).code = e.code)
    ∧ ((SEH.handleServiceError (.apiError e) ctx).statusCode = e.statusCode
      ∧ (SEH.handleServiceError (.apiError e) ctx).code = e.code) :=
  ⟨⟨rfl, rfl⟩, ⟨rfl, rfl⟩⟩

/-- C4 counterexample: `handleServiceError` in
`services/utils/serviceErrorHandler.ts` (used by `withErrorHandling`)
composes the re-wrap message as `"Failed to <operation>: ..."`, not
`"Failed in <operation>: ..."` as the claim states. -/
theorem rewrap_message_counterexample :
    (SEH.handleServiceError
        (.apiError { message := "boom", statusCode := 404,
                     code := "SERVER_ERROR", details := [] })
        { operation := "ProductService.getProducts",
          extra := [("args", JSVal.vArr [])] }).message
      = "Failed to ProductService.getProducts: boom"
    ∧ (SEH.handleServiceError
        (.apiError { message := "boom", statusCode := 404,
                     code := "SERVER_ERROR", details := [] })
        { operation := "ProductService.getProducts",
          extra := [("args", JSVal.vArr [])] }).message
      ≠ "Failed in ProductService.getProducts: boom" :=
  ⟨rfl, by decide⟩

/-- C4 (amended): re-wrapping an existing `ApiError` is additive in both
implementations — the kind (`code`) is kept, the new context is merged
over the inner `details` (inner keys not re-specified by the outer
context are preserved, and every inner key stays present), and the
message is `"Failed in <operation>: <previous message>"` in the decorator
module but `"Failed to <operation>: <previous message>"` in
`serviceErrorHandler.ts`. -/
theorem rewrap_additive (e : ApiError) (ctx : ErrorContext) (k : String)
    (hk : Obj.get ctx.toObj k = none) :
    ((Decorators.handleServiceError (.apiError e) ctx).code = e.code
      ∧ Obj.get (Decorators.handleServiceError (.apiError e) ctx).details k
          = Obj.get e.details k
      ∧ (∀ k2 v, Obj.get e.details k2 = some v →
          (Obj.get (Decorators.handleServiceError (.apiError e) ctx).details k2).isSome = true)
      ∧ (Decorators.handleServiceError (.apiError e) ctx).message
          = "Failed in " ++ ctx.operation ++ ": " ++ e.message)
    ∧ ((SEH.handleServiceError (.apiError e) ctx).code = e.code
      ∧ Obj.get (SEH.handleServiceError (.apiError e) ctx).details k
          = Obj.get e.details k
      ∧ (∀ k2 v, Obj.get e.details k2 = some v →
          (Obj.get (SEH.handleServiceError (.apiError e) ctx).details k2).isSome = true)
      ∧ (SEH.handleServiceError (.apiError e) ctx).message
          = "Failed to " ++ ctx.operation ++ ": " ++ e.message) := by
  have hmerge : Obj.get (e.details ++ ctx.toObj) k = Obj.get e.details k :=
    Obj.get_append_none e.details hk
  have hsup : ∀ k2 v, Obj.get e.details k2 = some v →
      (Obj.get (e.details ++ ctx.toObj) k2).isSome = true := by
    intro k2 v hv
    cases ho : Obj.get ctx.toObj k2 with
    | some w => simp [Obj.get_append_some e.details ho]
    | none => simp [Obj.get_append_none e.details ho, hv]
  exact ⟨⟨rfl, hmerge, hsup, rfl⟩, ⟨rfl, hmerge, hsup, rfl⟩⟩

/-- Witness for C4 (amended), at a concrete inner error whose `details`
hold an `entity` key that the outer context does not re-specify. -/
theorem rewrap_additive_witness :
    Obj.get (ErrorContext.toObj
        { operation := "ProductService.getProducts",
          extra := [("args", JSVal.vArr [])] }) "entity" = none
    ∧ (((Decorators.handleServiceError
        (.apiError { message := "boom", statusCode := 404, code := "SERVER_ERROR",
                     details := [("entity", JSVal.vStr "Product")] })
        { operation := "ProductService.getProducts",
          extra := [("args", JSVal.vArr [])] }).code = "SERVER_ERROR"
      ∧ Obj.get (Decorators.handleServiceError
        (.apiError { message := "boom", statusCode := 404, code := "SERVER_ERROR",
                     details := [("entity", JSVal.vStr "Product")] })
        { operation := "ProductService.getProducts",
          extra := [("args", JSVal.vArr [])] }).details "entity"
          = Obj.get [("entity", JSVal.vStr "Product")] "entity"
      ∧ (∀ k2 v, Obj.get [("entity", JSVal.vStr "Product")] k2 = some v →
          (Obj.get (Decorators.handleServiceError
            (.apiError { message := "boom", statusCode := 404, code := "SERVER_ERROR",
                         details := [("entity", JSVal.vStr "Product")] })
            { operation := "ProductService.getProducts",
              extra := [("args", JSVal.vArr [])] }).details k2).isSome = true)
      ∧ (Decorators.handleServiceError
        (.apiError { message := "boom", statusCode := 404, code := "SERVER_ERROR",
                     details := [("entity", JSVal.vStr "Product")] })
        { operation := "ProductService.getProducts",
          extra := [("args", JSVal.vArr [])] }).message
          = "Failed in " ++ "ProductService.getProducts" ++ ": " ++ "boom")
    ∧ ((SEH.handleServiceError
        (.apiError { message := "boom", statusCode := 404, code := "SERVER_ERROR",
                     details := [("entity", JSVal.vStr "Product")] })
        { operation := "ProductService.getProducts",
          extra := [("args", JSVal.vArr [])] }).code = "SERVER_ERROR"
      ∧ Obj.get (SEH.handleServiceError
        (.apiError { message := "boom", statusCode := 404, code := "SERVER_ERROR",
                     details := [("entity", JSVal.vStr "Product")] })
        { operation := "ProductService.getProducts",
          extra := [("args", JSVal.vArr [])] }).details "entity"
          = Obj.get [("entity", JSVal.vStr "Product")] "entity"
      ∧ (∀ k2 v, Obj.get [("entity", JSVal.vStr "Product")] k2 = some v →
          (Obj.get (SEH.handleServiceError
            (.apiError { message := "boom", statusCode := 404, code := "SERVER_ERROR",
                         details := [("entity", JSVal.vStr "Product")] })
            { operation := "ProductService.getProducts",
              extra := [("args", JSVal.vArr [])] }).details k2).isSome = true)
      ∧ (SEH.handleServiceError
        (.apiError { message := "boom", statusCode := 404, code := "SERVER_ERROR",
                     details := [("entity", JSVal.vStr "Product")] })
        { operation := "ProductService.getProducts",
          extra := [("args", JSVal.vArr [])] }).message
          = "Failed to " ++ "ProductService.getProducts" ++ ": " ++ "boom")) :=
  ⟨rfl, rewrap_additive
    { message := "boom", statusCode := 404, code := "SERVER_ERROR",
      details := [("entity", JSVal.vStr "Product")] }
    { operation := "ProductService.getProducts",
      extra := [("args", JSVal.vArr [])] } "entity" rfl⟩

/-- C5 counterexample: for the spec scenario (`"ProductService.getProducts"`
throwing a schema-validation error with one violation), the violation list
is stored under `context.zodError`; nothing is stored under
`context.violations`. -/
theorem validation_violations_key_counterexample :
    Obj.get (Decorators.handleServiceError
        (.zodError [JSVal.vObj [("path", JSVal.vStr "price"),
                                ("message", JSVal.vStr "expected positive number")]])
        { operation := "ProductService.getProducts",
          extra := [("method", JSVal.vStr "getProducts"),
                    ("service", JSVal.vStr "ProductService"),
                    ("args", JSVal.vArr (sanitizeArgs []))] }).details "violations" = none
    ∧ Obj.get (Decorators.handleServiceError
        (.zodError [JSVal.vObj [("path", JSVal.vStr "price"),
                                ("message", JSVal.vStr "expected positive number")]])
        { operation := "ProductService.getProducts",
          extra := [("method", JSVal.vStr "getProducts"),
                    ("service", JSVal.vStr "ProductService"),
                    ("args", JSVal.vArr (sanitizeArgs []))] }).details "zodError"
      = some (JSVal.vArr [JSVal.vObj [("path", JSVal.vStr "price"),
                                      ("message", JSVal.vStr "expected positive number")]]) :=
  ⟨rfl, rfl⟩

/-- C5 (amended): a caught schema-validation failure (not already an
`ApiError`) yields, in both implementations, an `ApiError` with kind
`VALIDATION_ERROR`, `statusCode 0`, and the raw violation list attached
unchanged under `context.zodError` (so its length is preserved; a
single-violation failure yields a list of length 1). -/
theorem validation_error_normalization (errors : List JSVal) (ctx : ErrorContext)
    (hz : Obj.get ctx.extra "zodError" = none) :
    ((Decorators.handleServiceError (.zodError errors) ctx).code = "VALIDATION_ERROR"
      ∧ (Decorators.handleServiceError (.zodError errors) ctx).statusCode = 0
      ∧ Obj.get (Decorators.handleServiceError (.zodError errors) ctx).details "zodError"
          = some (JSVal.vArr errors))
    ∧ ((SEH.handleServiceError (.zodError errors) ctx).code = "VALIDATION_ERROR"
      ∧ (SEH.handleServiceError (.zodError errors) ctx).statusCode = 0
      ∧ Obj.get (SEH.handleServiceError (.zodError errors) ctx).details "zodError"
          = some (JSVal.vArr errors)) := by
  have hctx : Obj.get ctx.toObj "zodError" = none := by
    have hne : ¬ ("operation" = "zodError") := by decide
    simp only [ErrorContext.toObj, Obj.get_cons, hz, if_neg hne]
  have hget : Obj.get ([("zodError", JSVal.vArr errors)] ++ ctx.toObj) "zodError"
      = some (JSVal.vArr errors) := by
    rw [Obj.get_append_none _ hctx]
    rfl
  exact ⟨⟨rfl, rfl, hget⟩, ⟨rfl, rfl, hget⟩⟩

/-- Witness for C5 (amended): the single-violation scenario from the spec. -/
theorem validation_error_normalization_witness :
    Obj.get [("method", JSVal.vStr "getProducts"),
             ("service", JSVal.vStr "ProductService"),
             ("args", JSVal.vArr (sanitizeArgs []))] "zodError" = none
    ∧ (((Decorators.handleServiceError
        (.zodError [JSVal.vObj [("path", JSVal.vStr "price"),
                                ("message", JSVal.vStr "expected positive number")]])
        { operation := "ProductService.getProducts",
          extra := [("method", JSVal.vStr "getProducts"),
                    ("service", JSVal.vStr "ProductService"),
                    ("args", JSVal.vArr (sanitizeArgs []))] }).code = "VALIDATION_ERROR"
      ∧ (Decorators.handleServiceError
        (.zodError [JSVal.vObj [("path", JSVal.vStr "price"),
                                ("message", JSVal.vStr "expected positive number")]])
        { operation := "ProductService.getProducts",
          extra := [("method", JSVal.vStr "getProducts"),
                    ("service", JSVal.vStr "ProductService"),
                    ("args", JSVal.vArr (sanitizeArgs []))] }).statusCode = 0
      ∧ Obj.get (Decorators.handleServiceError
        (.zodError [JSVal.vObj [("path", JSVal.vStr "price"),
                                ("message", JSVal.vStr "expected positive number")]])
        { operation := "ProductService.getProducts",
          extra := [("method", JSVal.vStr "getProducts"),
                    ("service", JSVal.vStr "ProductService"),
                    ("args", JSVal.vArr (sanitizeArgs []))] }).details "zodError"
          = some (JSVal.vArr [JSVal.vObj [("path", JSVal.vStr "price"),
                                          ("message", JSVal.vStr "expected positive number")]]))
    ∧ ((SEH.handleServiceError
        (.zodError [JSVal.vObj [("path", JSVal.vStr "price"),
                                ("message", JSVal.vStr "expected positive number")]])
        { operation := "ProductService.getProducts",
          extra := [("method", JSVal.vStr "getProducts"),
                    ("service", JSVal.vStr "ProductService"),
                    ("args", JSVal.vArr (sanitizeArgs []))] }).code = "VALIDATION_ERROR"
      ∧ (SEH.handleServiceError
        (.zodError [JSVal.vObj [("path", JSVal.vStr "price"),
                                ("message", JSVal.vStr "expected positive number")]])
        { operation := "ProductService.getProducts",
          extra := [("method", JSVal.vStr "getProducts"),
                    ("service", JSVal.vStr "ProductService"),
                    ("args", JSVal.vArr (sanitizeArgs []))] }).statusCode = 0
      ∧ Obj.get (SEH.handleServiceError
        (.zodError [JSVal.vObj [("path", JSVal.vStr "price"),
                                ("message", JSVal.vStr "expected positive number")]])
        { operation := "ProductService.getProducts",
          extra := [("method", JSVal.vStr "getProducts"),
                    ("service", JSVal.vStr "ProductService"),
                    ("args", JSVal.vArr (sanitizeArgs []))] }).details "zodError"
          = some (JSVal.vArr [JSVal.vObj [("path", JSVal.vStr "price"),
                                          ("message", JSVal.vStr "expected positive number")]]))) :=
  ⟨rfl, validation_error_normalization
    [JSVal.vObj [("path", JSVal.vStr "price"),
                 ("message", JSVal.vStr "expected positive number")]]
    { operation := "ProductService.getProducts",
      extra := [("method", JSVal.vStr "getProducts"),
                ("service", JSVal.vStr "ProductService"),
                ("args", JSVal.vArr (sanitizeArgs []))] } rfl⟩

/-- C6 counterexample: when a non-error value is thrown, the raw value is
stored under `context.error`, not under `context.raw` as the claim
states. -/
theorem unknown_raw_key_counterexample :
    Obj.get (Decorators.handleServiceError (.value (JSVal.vStr "oops"))
        { operation := "UserService.getUsers",
          extra := [("method", JSVal.vStr "getUsers"),
                    ("service", JSVal.vStr "UserService"),
                    ("args", JSVal.vArr (sanitizeArgs []))] }).details "raw" = none
    ∧ Obj.get (Decorators.handleServiceError (.value (JSVal.vStr "oops"))
        { operation := "UserService.getUsers",
          extra := [("method", JSVal.vStr "getUsers"),
                    ("service", JSVal.vStr "UserService"),
                    ("args", JSVal.vArr (sanitizeArgs []))] }).details "error"
      = some (JSVal.vStr "oops") :=
  ⟨rfl, rfl⟩

/-- C6 (amended): a caught failure that is neither an `ApiError` nor a
Zod error is normalized with kind `UNKNOWN_ERROR` and `statusCode 0`; an
ordinary error's result has `context.operation` equal to the configured
operation name and a message starting with `"Error in <operation>"`, and
any other thrown value is stored raw under `context.error`. -/
theorem unknown_error_normalization
    (fn fn2 : List JSVal → Except Thrown JSVal) (opName propertyKey ctorName : String)
    (args args2 : List JSVal) (msg : String) (v : JSVal)
    (hop : opName.isEmpty = false)
    (hgen : fn args = .error (.genericError msg))
    (hval : fn2 args2 = .error (.value v)) :
    (∃ a, HandleError (some opName) propertyKey ctorName fn args
        = .error (.apiError a)
      ∧ a.code = "UNKNOWN_ERROR" ∧ a.statusCode = 0
      ∧ Obj.get a.details "operation" = some (JSVal.vStr opName)
      ∧ ∃ rest, a.message = "Error in " ++ opName ++ rest)
    ∧ (∃ a, HandleError (some opName) propertyKey ctorName fn2 args2
        = .error (.apiError a)
      ∧ a.code = "UNKNOWN_ERROR" ∧ a.statusCode = 0
      ∧ Obj.get a.details "operation" = some (JSVal.vStr opName)
      ∧ Obj.get a.details "error" = some v) := by
  constructor
  · refine ⟨Decorators.handleServiceError (.genericError msg)
      { operation := opName,
        extra := [("method", JSVal.vStr propertyKey),
                  ("service", JSVal.vStr ctorName),
                  ("args", JSVal.vArr (sanitizeArgs args))] }, ?_, rfl, rfl, ?_, ?_⟩
    · simp [HandleError, hgen, hop]
    · exact rfl
    · exact ⟨": " ++ msg, by simp [Decorators.handleServiceError, String.append_assoc]⟩
  · refine ⟨Decorators.handleServiceError (.value v)
      { operation := opName,
        extra := [("method", JSVal.vStr propertyKey),
                  ("service", JSVal.vStr ctorName),
                  ("args", JSVal.vArr (sanitizeArgs args2))] }, ?_, rfl, rfl, ?_, ?_⟩
    · simp [HandleError, hval, hop]
    · exact rfl
    · exact rfl

/-- Witness for C6 (amended): the spec's `"timeout"` scenario for the
generic branch, and a thrown string for the fallback branch. -/
theorem unknown_error_normalization_witness :
    ("AuthService.login" : String).isEmpty = false
    ∧ ((∃ a, HandleError (some "AuthService.login") "login" "AuthService"
        (fun _ => .error (.genericError "timeout")) [] = .error (.apiError a)
      ∧ a.code = "UNKNOWN_ERROR" ∧ a.statusCode = 0
      ∧ Obj.get a.details "operation" = some (JSVal.vStr "AuthService.login")
      ∧ ∃ rest, a.message = "Error in " ++ "AuthService.login" ++ rest)
    ∧ (∃ a, HandleError (some "AuthService.login") "login" "AuthService"
        (fun _ => .error (.value (JSVal.vStr "oops"))) [] = .error (.apiError a)
      ∧ a.code = "UNKNOWN_ERROR" ∧ a.statusCode = 0
      ∧ Obj.get a.details "operation" = some (JSVal.vStr "AuthService.login")
      ∧ Obj.get a.details "error" = some (JSVal.vStr "oops"))) :=
  ⟨rfl, unknown_error_normalization
    (fun _ => .error (.genericError "timeout"))
    (fun _ => .error (.value (JSVal.vStr "oops")))
    "AuthService.login" "login" "AuthService" [] [] "timeout" (JSVal.vStr "oops")
    rfl rfl rfl⟩

theorem data_append_eq (a b : String) : (a ++ b).data = a.data ++ b.data := by
  cases a
  cases b
  rfl

/-- A default operation name `"<service>.<method>"` is never the empty
string, so the `operation || default` fallback never fires on it. -/
theorem dotted_name_isEmpty_false (a b : String) : (a ++ "." ++ b).isEmpty = false := by
  rw [Bool.eq_false_iff]
  intro h
  have h2 : (a ++ "." ++ b) = "" := (String.isEmpty_iff _).mp h
  have h3 := congrArg String.data h2
  rw [data_append_eq, data_append_eq] at h3
  simp at h3

/-- In every branch of `handleServiceError`, the context is spread last,
so the `operation` entry survives into the resulting `details`. -/
theorem Decorators.get_details_operation (e : Thrown) (ctx : ErrorContext)
    (h : Obj.get ctx.extra "operation" = none) :
    Obj.get (Decorators.handleServiceError e ctx).details "operation"
      = some (JSVal.vStr ctx.operation) := by
  have hto : Obj.get ctx.toObj "operation" = some (JSVal.vStr ctx.operation) := by
    simp [ErrorContext.toObj, h]
  cases e with
  | apiError e2 => exact Obj.get_append_some _ hto
  | zodError errors => exact Obj.get_append_some _ hto
  | genericError msg => exact hto
  | value v => exact Obj.get_append_some _ hto

/-- C7: entity-level auto-wrap applies the operation wrapper to exactly
the entity's asynchronous operations, with default operation name
`"<entityName>.<operationName>"`; every synchronous operation is left
untouched, so calling it raises the original, unwrapped error. -/
theorem entity_auto_wrap (serviceName ctorName : String) (ms : List MethodDef)
    (i : Nat) (hi : i < ms.length) :
    ((ms.getD i default).isAsync = false →
        ((ServiceErrorHandler serviceName ctorName ms).getD i default).fn
          = (ms.getD i default).fn)
    ∧ ((ms.getD i default).isAsync = true →
        ∀ args e, (ms.getD i default).fn args = .error e →
          ∃ a, ((ServiceErrorHandler serviceName ctorName ms).getD i default).fn args
              = .error (.apiError a)
            ∧ Obj.get a.details "operation"
                = some (JSVal.vStr (serviceName ++ "." ++ (ms.getD i default).name))) := by
  have hlen : i < (ServiceErrorHandler serviceName ctorName ms).length := by
    simpa [ServiceErrorHandler] using hi
  have hget : (ServiceErrorHandler serviceName ctorName ms).getD i default
      = (fun m => if m.isAsync then
            { m with fn := HandleError (some (serviceName ++ "." ++ m.name)) m.name ctorName m.fn }
          else m) (ms.getD i default) := by
    rw [List.getD_eq_getElem _ _ hlen, List.getD_eq_getElem _ _ hi]
    simp [ServiceErrorHandler, List.getElem_map]
  rw [hget]
  set m := ms.getD i default with hm
  constructor
  · intro h
    simp only []
    rw [if_neg (by simp [h])]
  · intro h args e herr
    simp only []
    rw [if_pos h]
    refine ⟨Decorators.handleServiceError e
      { operation := serviceName ++ "." ++ m.name,
        extra := [("method", JSVal.vStr m.name),
                  ("service", JSVal.vStr ctorName),
                  ("args", JSVal.vArr (sanitizeArgs args))] }, ?_, ?_⟩
    · simp [HandleError, herr, dotted_name_isEmpty_false]
    · exact Decorators.get_details_operation e _ rfl

/-- A concrete two-method entity: a synchronous helper and an
asynchronous operation, both failing. -/
def sampleEntity : List MethodDef :=
  [{ name := "syncHelper", isAsync := false,
     fn := fun _ => .error (.genericError "sync boom") },
   { name := "getProducts", isAsync := true,
     fn := fun _ => .error (.genericError "fail") }]

/-- Witness for C7 at the synchronous method of a concrete entity. -/
theorem entity_auto_wrap_witness :
    (0 : Nat) < sampleEntity.length
    ∧ (((sampleEntity.getD 0 default).isAsync = false →
          ((ServiceErrorHandler "ProductService" "ProductService" sampleEntity).getD 0 default).fn
            = (sampleEntity.getD 0 default).fn)
      ∧ ((sampleEntity.getD 0 default).isAsync = true →
          ∀ args e, (sampleEntity.getD 0 default).fn args = .error e →
            ∃ a, ((ServiceErrorHandler "ProductService" "ProductService" sampleEntity).getD 0 default).fn args
                = .error (.apiError a)
              ∧ Obj.get a.details "operation"
                  = some (JSVal.vStr ("ProductService" ++ "." ++ (sampleEntity.getD 0 default).name)))) :=
  ⟨by decide, entity_auto_wrap "ProductService" "ProductService" sampleEntity 0 (by decide)⟩

/-- In every branch of `handleServiceError`, entries of the context's
extra fields survive into the resulting `details` (the context is spread
last, and the `operation` entry precedes the extras). -/
theorem Decorators.get_details_extra (e : Thrown) (ctx : ErrorContext)
    {k : String} {w : JSVal} (h : Obj.get ctx.extra k = some w) :
    Obj.get (Decorators.handleServiceError e ctx).details k = some w := by
  have hto : Obj.get ctx.toObj k = some w := by
    simp [ErrorContext.toObj, h]
  cases e with
  | apiError e2 => exact Obj.get_append_some _ hto
  | zodError errors => exact Obj.get_append_some _ hto
  | genericError msg => exact hto
  | value v => exact Obj.get_append_some _ hto

/-- C2 counterexample: redaction does not reach one level deep into
nested object arguments — a `password` inside a nested object survives
sanitization verbatim. -/
theorem sanitize_nested_counterexample :
    sanitizeArgs [JSVal.vObj [("creds", JSVal.vObj [("password", JSVal.vStr "secret123")])]]
      = [JSVal.vObj [("creds", JSVal.vObj [("password", JSVal.vStr "secret123")])]]
    ∧ JSVal.vStr "secret123" ≠ JSVal.vStr "[REDACTED]" :=
  ⟨rfl, by simp⟩

/-- C2 (amended): the argument list recorded on an error produced by the
`HandleError` wrapper is the sanitized one, and for every top-level
sensitive key present in an object argument the recorded value is
`"[REDACTED]"`; nested objects are not descended into. -/
theorem context_args_redaction
    (fn : List JSVal → Except Thrown JSVal) (operation : Option String)
    (propertyKey ctorName : String) (args : List JSVal) (e : Thrown)
    (herr : fn args = .error e)
    (i : Nat) (fs : Obj) (hi : args.getD i .vUndefined = .vObj fs)
    (k : String) (hk : k ∈ sensitiveFields) (hp : (Obj.get fs k).isSome = true) :
    ∃ a, HandleError operation propertyKey ctorName fn args = .error (.apiError a)
      ∧ Obj.get a.details "args" = some (JSVal.vArr (sanitizeArgs args))
      ∧ (sanitizeArgs args).getD i .vUndefined = .vObj (redactSensitive fs)
      ∧ Obj.get (redactSensitive fs) k = some (JSVal.vStr "[REDACTED]") := by
  refine ⟨Decorators.handleServiceError e
    { operation := match operation with
        | some s => if s.isEmpty then ctorName ++ "." ++ propertyKey else s
        | none => ctorName ++ "." ++ propertyKey,
      extra := [("method", JSVal.vStr propertyKey),
                ("service", JSVal.vStr ctorName),
                ("args", JSVal.vArr (sanitizeArgs args))] }, ?_, ?_, ?_, ?_⟩
  · simp [HandleError, herr]
  · exact Decorators.get_details_extra e _ rfl
  · rw [List.getD_eq_getD_get?] at hi ⊢
    cases hq : args.get? i with
    | none =>
      rw [hq] at hi
      cases hi
    | some x =>
      rw [hq] at hi
      simp only [Option.getD_some] at hi
      subst hi
      simp only [sanitizeArgs]
      rw [List.get?_eq_getElem?] at hq ⊢
      rw [List.getElem?_map, hq]
      rfl
  · exact Obj.get_redactSensitive_mem fs hk hp

/-- Witness for C2 (amended): the spec's login scenario —
`{username: "a", password: "secret123"}` with a thrown `"timeout"`. -/
theorem context_args_redaction_witness :
    ((fun (_ : List JSVal) => (Except.error (.genericError "timeout") : Except Thrown JSVal))
        [JSVal.vObj [("username", JSVal.vStr "a"), ("password", JSVal.vStr "secret123")]]
      = .error (.genericError "timeout"))
    ∧ ([JSVal.vObj [("username", JSVal.vStr "a"), ("password", JSVal.vStr "secret123")]].getD 0 .vUndefined
        = JSVal.vObj [("username", JSVal.vStr "a"), ("password", JSVal.vStr "secret123")])
    ∧ "password" ∈ sensitiveFields
    ∧ (Obj.get [("username", JSVal.vStr "a"), ("password", JSVal.vStr "secret123")] "password").isSome = true
    ∧ (∃ a, HandleError (some "AuthService.login") "login" "AuthService"
          (fun _ => .error (.genericError "timeout"))
          [JSVal.vObj [("username", JSVal.vStr "a"), ("password", JSVal.vStr "secret123")]]
        = .error (.apiError a)
      ∧ Obj.get a.details "args"
          = some (JSVal.vArr (sanitizeArgs
              [JSVal.vObj [("username", JSVal.vStr "a"), ("password", JSVal.vStr "secret123")]]))
      ∧ (sanitizeArgs [JSVal.vObj [("username", JSVal.vStr "a"), ("password", JSVal.vStr "secret123")]]).getD 0 .vUndefined
          = JSVal.vObj (redactSensitive [("username", JSVal.vStr "a"), ("password", JSVal.vStr "secret123")])
      ∧ Obj.get (redactSensitive [("username", JSVal.vStr "a"), ("password", JSVal.vStr "secret123")]) "password"
          = some (JSVal.vStr "[REDACTED]")) :=
  ⟨rfl, rfl, by decide, rfl,
    context_args_redaction
      (fun _ => .error (.genericError "timeout")) (some "AuthService.login")
      "login" "AuthService"
      [JSVal.vObj [("username", JSVal.vStr "a"), ("password", JSVal.vStr "secret123")]]
      (.genericError "timeout") rfl 0
      [("username", JSVal.vStr "a"), ("password", JSVal.vStr "secret123")]
      rfl "password" (by decide) rfl⟩

/-- C8 counterexample: an array argument does not pass through unchanged —
`typeof [] === 'object'`, so `{...arg}` turns it into a plain object with
index keys. -/
theorem sanitize_array_counterexample :
    sanitizeArgs [JSVal.vArr [JSVal.vNum 1, JSVal.vNum 2]]
      = [JSVal.vObj [("0", JSVal.vNum 1), ("1", JSVal.vNum 2)]]
    ∧ [JSVal.vObj [("0", JSVal.vNum 1), ("1", JSVal.vNum 2)]]
      ≠ [JSVal.vArr [JSVal.vNum 1, JSVal.vNum 2]] :=
  ⟨rfl, by simp⟩

/-- C8 (amended): only non-object primitives (strings, numbers, booleans,
`null`, `undefined`) pass through sanitization unchanged; an array, like
any non-null `typeof 'object'` value, is shallow-copied into a plain
object (with its sensitive keys redacted) and therefore changes shape. -/
theorem sanitize_non_mapping_passthrough :
    (∀ s, sanitizeArg (JSVal.vStr s) = JSVal.vStr s)
    ∧ (∀ n, sanitizeArg (JSVal.vNum n) = JSVal.vNum n)
    ∧ (∀ b, sanitizeArg (JSVal.vBool b) = JSVal.vBool b)
    ∧ sanitizeArg JSVal.vNull = JSVal.vNull
    ∧ sanitizeArg JSVal.vUndefined = JSVal.vUndefined
    ∧ (∀ xs, sanitizeArg (JSVal.vArr xs) = JSVal.vObj (redactSensitive (arrToObj xs))) :=
  ⟨fun _ => rfl, fun _ => rfl, fun _ => rfl, rfl, rfl, fun _ => rfl⟩

/-!
## Mutation model of `sanitizeArgs` (frame property)

To state that sanitization never mutates the caller's argument objects,
objects are given identity: a heap is a list of object cells and an
object argument is a reference into it. `const sanitized = {...arg}`
allocates a fresh cell holding a shallow copy, and the `forEach` loop
assigns only into that fresh cell.
-/

/-- A heap of JS objects: cell `r` is the object with identity `r`. -/
abbrev Heap := List Obj

/-- Dereference a cell. -/
def Heap.read (h : Heap) (r : Nat) : Obj := h.getD r []

/-- Assign a cell. -/
def Heap.write (h : Heap) (r : Nat) (o : Obj) : Heap := h.set r o

/-- An argument as the wrapper receives it: object arguments are
references with identity, primitives are immediate values. -/
inductive HArg where
  | objRef (r : Nat)
  | prim (v : JSVal)

/-- One `forEach` iteration of the sanitize loop, assigning into cell
`r2` (the fresh copy): `if (field in sanitized) sanitized[field] =
'[REDACTED]'`. -/
def redactFieldH (r2 : Nat) (h : Heap) (field : String) : Heap :=
  if (h.read r2).hasKey field then
    h.write r2 ((h.read r2).map (redactAssign field))
  else h

/-- The `sanitizeArgs` body for one argument, heap explicit: an object
argument is shallow-copied into a fresh cell and the loop mutates that
cell; primitives pass through untouched. -/
def sanitizeArgH (h : Heap) (a : HArg) : Heap × HArg :=
  match a with
  | .objRef r =>
      (sensitiveFields.foldl (redactFieldH h.length) (h ++ [h.read r]),
       .objRef h.length)
  | .prim v => (h, .prim v)

/-- The whole `args.map`, threading the heap left to right. -/
def sanitizeArgsH (h : Heap) (args : List HArg) : Heap × List HArg :=
  match args with
  | [] => (h, [])
  | a :: rest =>
      let p := sanitizeArgH h a
      let q := sanitizeArgsH p.1 rest
      (q.1, p.2 :: q.2)

theorem Heap.read_write_ne (h : Heap) {r r2 : Nat} (hne : r ≠ r2) (o : Obj) :
    (h.write r2 o).read r = h.read r := by
  unfold Heap.write Heap.read
  rw [List.getD_eq_getD_get?, List.getD_eq_getD_get?,
    List.get?_eq_getElem?, List.get?_eq_getElem?,
    List.getElem?_set_ne (by omega)]

theorem redactFieldH_read_ne {r r2 : Nat} (hne : r ≠ r2) (h : Heap) (field : String) :
    (redactFieldH r2 h field).read r = h.read r := by
  unfold redactFieldH
  split
  · exact Heap.read_write_ne h hne _
  · rfl

theorem redactFieldH_length (r2 : Nat) (h : Heap) (field : String) :
    (redactFieldH r2 h field).length = h.length := by
  unfold redactFieldH
  split
  · exact List.length_set h r2 _
  · rfl

theorem foldl_redactFieldH_read_ne {r r2 : Nat} (hne : r ≠ r2) (l : List String) (h : Heap) :
    (l.foldl (redactFieldH r2) h).read r = h.read r := by
  induction l generalizing h with
  | nil => rfl
  | cons f l ih => rw [List.foldl_cons, ih, redactFieldH_read_ne hne]

theorem sanitizeArgH_read (h : Heap) (a : HArg) {r : Nat} (hr : r < h.length) :
    (sanitizeArgH h a).1.read r = h.read r := by
  cases a with
  | objRef r0 =>
    simp only [sanitizeArgH]
    rw [foldl_redactFieldH_read_ne (by omega)]
    unfold Heap.read
    exact List.getD_append _ _ _ _ hr
  | prim v => rfl

theorem foldl_redactFieldH_length (r2 : Nat) (l : List String) (h : Heap) :
    (l.foldl (redactFieldH r2) h).length = h.length := by
  induction l generalizing h with
  | nil => rfl
  | cons f l ih => rw [List.foldl_cons, ih, redactFieldH_length]

theorem sanitizeArgH_length (h : Heap) (a : HArg) :
    h.length ≤ (sanitizeArgH h a).1.length := by
  cases a with
  | objRef r0 =>
    simp only [sanitizeArgH]
    rw [foldl_redactFieldH_length]
    simp
  | prim v => exact Nat.le_refl _

/-- C9: argument sanitization never mutates the caller's original
argument objects — every heap cell that existed before `sanitizeArgs`
runs holds exactly the same object afterwards (each original key still
maps to the value it had); redaction happens only on fresh copies. -/
theorem sanitize_no_mutation (h : Heap) (args : List HArg) (r : Nat)
    (hr : r < h.length) :
    (sanitizeArgsH h args).1.read r = h.read r := by
  induction args generalizing h with
  | nil => rfl
  | cons a rest ih =>
    simp only [sanitizeArgsH]
    rw [ih _ (Nat.lt_of_lt_of_le hr (sanitizeArgH_length h a)),
      sanitizeArgH_read h a hr]

/-- Witness for C9: a concrete heap holding one object with a `password`
key; the cell is unchanged after sanitization of a reference to it. -/
theorem sanitize_no_mutation_witness :
    (0 : Nat) < ([[("password", JSVal.vStr "secret123")]] : Heap).length
    ∧ (sanitizeArgsH [[("password", JSVal.vStr "secret123")]] [HArg.objRef 0]).1.read 0
        = Heap.read [[("password", JSVal.vStr "secret123")]] 0 :=
  ⟨by decide, sanitize_no_mutation [[("password", JSVal.vStr "secret123")]]
    [HArg.objRef 0] 0 (by decide)⟩
